import Mathlib

/-!
Verification of the PDQA timetable generation engine
(`src/scheduler/timetable_scheduler.py`) against its natural-language
specification.

The Python scheduler is shallowly embedded below.  Times are modelled as the
"HH:MM" strings the source manipulates (`_time_to_minutes` /
`_minutes_to_time` work on strings), with Python's `str.split(':')`,
`int(...)` and `f"{n:02d}"` modelled by explicit character-list functions.
The scheduling dictionaries (`faculty_schedule` etc., `Dict[int, Dict[str,
List[TimeSlot]]]`) are modelled as total functions defaulting to `[]`; this
is observationally equivalent because the source only reads them through
`not in`-guarded `.get(day, [])` accesses whose miss behaviour coincides
with the empty list.
-/

namespace PDQA

/-- Character of a decimal digit, models Python's rendering of a digit
(code point 48 + d). -/
def digitChar (n : Nat) : Char := Char.ofNat (48 + n)

/-- Structural worker for `digitsOf`; `fuel` only bounds the recursion
depth (kept at least `n`, which `digitsOf_aux_fuel` below shows is always
enough, so the `fuel = 0` guard line is never the deciding branch). -/
def digitsOfAux : Nat → Nat → List Char
  | 0, n => [digitChar n]
  | fuel + 1, n =>
    if n < 10 then [digitChar n]
    else digitsOfAux fuel (n / 10) ++ [digitChar (n % 10)]

/-- Decimal rendering of a natural number, models Python's `str(n)` /
`"%d" % n` for non-negative `n`. -/
def digitsOf (n : Nat) : List Char := digitsOfAux n n

/-- With fuel at least `n`, the worker no longer depends on the fuel. -/
theorem digitsOf_aux_fuel (fuel fuel' n : Nat) (h : n ≤ fuel)
    (h' : n ≤ fuel') : digitsOfAux fuel n = digitsOfAux fuel' n := by
  induction fuel generalizing fuel' n with
  | zero =>
    interval_cases n
    cases fuel' <;> simp [digitsOfAux]
  | succ f ih =>
    cases fuel' with
    | zero =>
      interval_cases n
      simp [digitsOfAux]
    | succ f' =>
      by_cases h10 : n < 10
      · simp [digitsOfAux, h10]
      · have hd : n / 10 ≤ f := by omega
        have hd' : n / 10 ≤ f' := by
          have := Nat.div_le_self n 10
          omega
        simp only [digitsOfAux, if_neg h10]
        rw [ih f' (n / 10) hd hd']

/-- Two-digit zero-padded rendering, models Python's `f"{n:02d}"` for
`0 <= n`. -/
def pad2 (n : Nat) : List Char :=
  if n < 10 then '0' :: digitsOf n else digitsOf n

/-- Embeds `TimetableScheduler._minutes_to_time`: render minutes since
midnight as an `"HH:MM"` string. -/
def minutes_to_time (minutes : Nat) : String :=
  String.mk (pad2 (minutes / 60) ++ ':' :: pad2 (minutes % 60))

/-- Value of a decimal digit character, `none` on non-digits. -/
def digitVal (c : Char) : Option Nat :=
  if '0' ≤ c ∧ c ≤ '9' then some (c.toNat - 48) else none

/-- One step of decimal accumulation for `parseInt`. -/
def parseStep (acc : Option Nat) (c : Char) : Option Nat :=
  match acc, digitVal c with
  | some n, some d => some (n * 10 + d)
  | _, _ => none

/-- Models Python's `int(...)` on a non-empty all-digit string; `none`
where Python would raise `ValueError`. -/
def parseInt : List Char → Option Nat
  | [] => none
  | cs => cs.foldl parseStep (some 0)

/-- Models Python's `str.split(':')` on the character list of a string. -/
def splitOnColon : List Char → List (List Char)
  | [] => [[]]
  | c :: cs =>
    if c = ':' then [] :: splitOnColon cs
    else
      match splitOnColon cs with
      | [] => [[c]]
      | g :: gs => (c :: g) :: gs

/-- Embeds `TimetableScheduler._time_to_minutes`: parse an `"HH:MM"` string
to minutes since midnight.  (On strings that are not of that shape Python
raises; the model returns `0`, and no theorem below feeds it such input.) -/
def time_to_minutes (s : String) : Nat :=
  match (splitOnColon s.data).map parseInt with
  | [some h, some m] => h * 60 + m
  | _ => 0

/-- Faculty catalog row (`db_models.Faculty`): `id`, `name`,
`faculty_code`, `max_hours_per_day`. -/
structure Faculty where
  id : Nat
  name : String
  faculty_code : String
  max_hours_per_day : Nat
  deriving DecidableEq, Repr

/-- Subject catalog row (`db_models.Subject`); the `year`/`semester`/
`degree` columns are only used by the external data store to filter the
catalog handed to the engine and are omitted.  `preferred_faculty_ids` is
the per-subject preferred-instructor list manipulated by the UI layer
(`faculty_subject_mapping_tab.py`); it is carried here so claims about it
can be stated. -/
structure Subject where
  id : Nat
  code : String
  name : String
  is_lab : Bool
  duration : Nat
  preferred_faculty_ids : List Nat
  deriving DecidableEq, Repr

/-- Venue catalog row (`db_models.Venue`). -/
structure Venue where
  id : Nat
  name : String
  venue_type : String
  capacity : Nat
  deriving DecidableEq, Repr

/-- Section catalog row (`db_models.Section`). -/
structure Section where
  id : Nat
  name : String
  subsections : List String
  strength : Nat
  deriving DecidableEq, Repr

/-- Scheduled class (`db_models.ClassAssignment`), with exactly the fields
the scheduler populates. -/
structure ClassAssignment where
  subject_id : Nat
  faculty_id : Nat
  section_id : Nat
  subsection : Option String
  venue_id : Nat
  day : String
  start_time : String
  duration : Nat
  deriving DecidableEq, Repr

/-- Scheduling conflict record (`timetable_scheduler.Conflict`). -/
structure Conflict where
  type : String
  subject_code : String
  details : String
  severity : String
  deriving DecidableEq, Repr

/-- Time slot (`timetable_scheduler.TimeSlot`). -/
structure TimeSlot where
  start_time : String
  end_time : String
  day : String
  deriving DecidableEq, Repr

/-- Generation settings (`timetable_scheduler.GenerationSettings`); the
`days = None -> weekdays` post-init default is modelled as a field
default. -/
structure GenerationSettings where
  start_time : String := "09:00"
  end_time : String := "18:00"
  lunch_start : String := "13:00"
  lunch_end : String := "14:00"
  days : List String := ["Mon", "Tue", "Wed", "Thu", "Fri", "Sat"]
  max_hours_per_day : Nat := 6
  lab_duration : Nat := 2
  lecture_duration : Nat := 1
  deriving DecidableEq, Repr

/-- Catalog snapshot produced by `_load_generation_data` (the database
lookups themselves are the external collaborator's concern). -/
structure GenData where
  subjects : List Subject
  venues : List Venue
  sections : List Section
  faculties : List Faculty

/-- One of the scheduler's tracking dictionaries
(`Dict[int, Dict[str, List[TimeSlot]]]`), as a total function. -/
abbrev Schedule := Nat → String → List TimeSlot

/-- Mutable generation state of `TimetableScheduler` (assignments,
conflicts and the three tracking dictionaries). -/
structure SchedState where
  assignments : List ClassAssignment
  conflicts : List Conflict
  faculty_schedule : Schedule
  venue_schedule : Schedule
  section_schedule : Schedule

/-- State right after `_initialize_schedules` and the resets in
`generate_timetable`. -/
def initState : SchedState :=
  ⟨[], [], fun _ _ => [], fun _ _ => [], fun _ _ => []⟩

/-- Elements of Python's `range(start, stop, 60)`. -/
def hour_range (start stop : Nat) : List Nat :=
  (List.range ((stop - start + 59) / 60)).map (fun k => start + 60 * k)

/-- Embeds `TimetableScheduler._generate_time_slots`: one slot per clock
hour of each configured day, skipping hours whose start falls in
`[lunch_start, lunch_end)`. -/
def generate_time_slots (settings : GenerationSettings) : List TimeSlot :=
  let start := time_to_minutes settings.start_time
  let stop := time_to_minutes settings.end_time
  let lunch_s := time_to_minutes settings.lunch_start
  let lunch_e := time_to_minutes settings.lunch_end
  settings.days.flatMap fun day =>
    (hour_range start stop).filterMap fun time =>
      if lunch_s ≤ time ∧ time < lunch_e then none
      else some ⟨minutes_to_time time, minutes_to_time (time + 60), day⟩

/-- Sort key used by `_prioritize_subjects`:
`(not s.is_lab, s.duration, s.code)`. -/
def sortKey (s : Subject) : Bool × Nat × String :=
  (!s.is_lab, s.duration, s.code)

/-- Python's `<` on the bool component of the key
(`False < True`). -/
def boolLt (a b : Bool) : Bool := !a && b

/-- Python's lexicographic `<` on strings, compared code point by code
point (Lean's built-in `String` order does not reduce in the kernel, so
the comparison is spelled out on the character lists). -/
def charsLt : List Char → List Char → Bool
  | [], [] => false
  | [], _ :: _ => true
  | _ :: _, [] => false
  | c :: cs, d :: ds =>
    if c.toNat < d.toNat then true
    else if d.toNat < c.toNat then false
    else charsLt cs ds

/-- Python's `<` on strings. -/
def strLt (a b : String) : Bool := charsLt a.data b.data

/-- Python's lexicographic `<` on the sort-key triples. -/
def keyLt (a b : Bool × Nat × String) : Bool :=
  boolLt a.1 b.1 ||
    (a.1 == b.1 &&
      (decide (a.2.1 < b.2.1) ||
        (a.2.1 == b.2.1 && strLt a.2.2 b.2.2)))

/-- Stable insertion of a subject into a key-sorted list: the new element
goes after all elements with an equal-or-smaller key. -/
def insertSorted (x : Subject) : List Subject → List Subject
  | [] => [x]
  | y :: ys =>
    if keyLt (sortKey x) (sortKey y) then x :: y :: ys
    else y :: insertSorted x ys

/-- Embeds `TimetableScheduler._prioritize_subjects`: Python's stable
`sorted` with key `(not is_lab, duration, code)`, modelled by stable
insertion sort (stable sorts under the same total preorder agree). -/
def prioritize_subjects (subjects : List Subject) : List Subject :=
  subjects.foldl (fun acc s => insertSorted s acc) []

/-- Embeds `TimetableScheduler._slots_overlap`: `slot1` carries the new
placement's duration, while the already-stored `slot2` is assumed to span
one hour (`end2 = start2 + 60`), exactly as in the source. -/
def slots_overlap (slot1 slot2 : TimeSlot) (duration : Nat) : Bool :=
  let start1 := time_to_minutes slot1.start_time
  let end1 := start1 + duration * 60
  let start2 := time_to_minutes slot2.start_time
  let end2 := start2 + 60
  !(decide (end1 ≤ start2) || decide (end2 ≤ start1))

/-- Embeds `TimetableScheduler._faculty_has_conflict`. -/
def faculty_has_conflict (sched : Schedule) (faculty_id : Nat)
    (slot : TimeSlot) (duration : Nat) : Bool :=
  (sched faculty_id slot.day).any fun s => slots_overlap slot s duration

/-- Embeds `TimetableScheduler._venue_has_conflict`. -/
def venue_has_conflict (sched : Schedule) (venue_id : Nat)
    (slot : TimeSlot) (duration : Nat) : Bool :=
  (sched venue_id slot.day).any fun s => slots_overlap slot s duration

/-- Embeds `TimetableScheduler._section_has_conflict`. -/
def section_has_conflict (sched : Schedule) (section_id : Nat)
    (slot : TimeSlot) (duration : Nat) : Bool :=
  (sched section_id slot.day).any fun s => slots_overlap slot s duration

/-- Embeds `TimetableScheduler._faculty_exceeds_daily_limit`: counts
`len(day_schedule)` stored slots ("Assuming 1 hour per slot") against the
run-wide `max_hours` argument.  Both source branches (`faculty_id not in
self.faculty_schedule` and the dictionary hit) collapse to this formula
under the default-`[]` schedule model. -/
def faculty_exceeds_daily_limit (sched : Schedule) (faculty_id : Nat)
    (day : String) (duration : Nat) (max_hours : Nat) : Bool :=
  decide ((sched faculty_id day).length + duration > max_hours)

/-- Embeds `TimetableScheduler._is_valid_placement`. -/
def is_valid_placement (st : SchedState) (faculty : Faculty)
    (sec : Section) (venue : Venue) (slot : TimeSlot) (duration : Nat)
    (settings : GenerationSettings) : Bool :=
  !faculty_has_conflict st.faculty_schedule faculty.id slot duration &&
  !venue_has_conflict st.venue_schedule venue.id slot duration &&
  !section_has_conflict st.section_schedule sec.id slot duration &&
  !faculty_exceeds_daily_limit st.faculty_schedule faculty.id slot.day
    duration settings.max_hours_per_day

/-- Embeds `TimetableScheduler._can_accommodate_duration`. -/
def can_accommodate_duration (slot : TimeSlot) (duration : Nat)
    (all_slots : List TimeSlot) : Bool :=
  if duration == 1 then true
  else
    let current := time_to_minutes slot.start_time
    (List.range duration).all fun i =>
      let check := current + i * 60
      all_slots.any fun s =>
        s.start_time == minutes_to_time check && s.day == slot.day

/-- Embeds `TimetableScheduler._select_subsection` (the source takes the
subject as an argument but never reads it). -/
def select_subsection (sec : Section) (_subject : Subject) :
    Option String :=
  sec.subsections.head?

/-- Placement dictionary built by `_find_best_placement`. -/
structure Placement where
  faculty : Faculty
  sec : Section
  subsection : Option String
  venue : Venue
  day : String
  start_time : String
  duration : Nat
  deriving DecidableEq, Repr

/-- Venue filter of `_find_best_placement`:
`(subject.is_lab and v.venue_type == 'lab') or (not subject.is_lab and
v.venue_type == 'lecture')`. -/
def venue_matches (subject : Subject) (v : Venue) : Bool :=
  (subject.is_lab && v.venue_type == "lab") ||
    (!subject.is_lab && v.venue_type == "lecture")

/-- The `duration` computed inside `_find_best_placement`'s slot loop:
`settings.lab_duration if subject.is_lab else settings.lecture_duration`
(it does not depend on the loop variables). -/
def placement_duration (settings : GenerationSettings)
    (subject : Subject) : Nat :=
  if subject.is_lab then settings.lab_duration
  else settings.lecture_duration

/-- Inner loops of `_find_best_placement` for one fixed faculty: scan
sections, then slots (checking `_can_accommodate_duration`), then the
kind-filtered venues, returning the first valid placement.  (The source
computes `available_venues` once before the faculty loop; recomputing the
same pure filter here changes nothing.) -/
def faculty_search (st : SchedState) (subject : Subject) (data : GenData)
    (time_slots : List TimeSlot) (settings : GenerationSettings)
    (faculty : Faculty) : Option Placement :=
  let available_venues := data.venues.filter (venue_matches subject)
  data.sections.findSome? fun sec =>
    time_slots.findSome? fun slot =>
      let duration := placement_duration settings subject
      if !can_accommodate_duration slot duration time_slots then none
      else
        available_venues.findSome? fun venue =>
          if is_valid_placement st faculty sec venue slot duration
              settings then
            some
              ⟨faculty, sec,
                if subject.is_lab then select_subsection sec subject
                else none,
                venue, slot.day, slot.start_time, duration⟩
          else none

/-- Embeds `TimetableScheduler._find_best_placement`: scan faculties in
catalog order, returning the first valid placement found. -/
def find_best_placement (st : SchedState) (subject : Subject)
    (data : GenData) (time_slots : List TimeSlot)
    (settings : GenerationSettings) : Option Placement :=
  data.faculties.findSome?
    (faculty_search st subject data time_slots settings)

/-- Embeds `TimetableScheduler._calculate_end_time`. -/
def calculate_end_time (start_time : String) (duration : Nat) : String :=
  minutes_to_time (time_to_minutes start_time + duration * 60)

/-- Point update of one tracking dictionary: append the slot under the
given key and day. -/
def appendSched (s : Schedule) (key : Nat) (day : String)
    (slot : TimeSlot) : Schedule :=
  fun k d => if k = key ∧ d = day then s k d ++ [slot] else s k d

/-- Embeds `TimetableScheduler._update_schedules`. -/
def update_schedules (st : SchedState) (a : ClassAssignment)
    (p : Placement) : SchedState :=
  let slot : TimeSlot :=
    ⟨p.start_time, calculate_end_time p.start_time p.duration, p.day⟩
  { st with
    faculty_schedule :=
      appendSched st.faculty_schedule a.faculty_id p.day slot
    venue_schedule := appendSched st.venue_schedule a.venue_id p.day slot
    section_schedule :=
      appendSched st.section_schedule a.section_id p.day slot }

/-- Embeds `TimetableScheduler._remove_from_schedules`, whose body is
`pass`: the state is returned unchanged. -/
def remove_from_schedules (st : SchedState) (_a : ClassAssignment) :
    SchedState :=
  st

/-- The `ClassAssignment` constructed in `_schedule_subjects` from a
placement. -/
def mkAssignment (subject : Subject) (p : Placement) : ClassAssignment :=
  ⟨subject.id, p.faculty.id, p.sec.id, p.subsection, p.venue.id, p.day,
    p.start_time, p.duration⟩

/-- The `constraint` conflict recorded in `_schedule_subjects` when a
subject cannot be placed. -/
def mkConstraintConflict (subject : Subject) : Conflict :=
  ⟨"constraint", subject.code, "No available slots found", "high"⟩

/-- The `max_backtrack_depth` constant set in `TimetableScheduler.__init__`. -/
def max_backtrack_depth : Nat := 50

/-- Full loop state of `_schedule_subjects`: generation state plus the
`backtrack_stack` list and the `current_subject_index` cursor. -/
structure LoopState where
  st : SchedState
  backtrack_stack : List ClassAssignment
  idx : Nat

/-- One iteration of the `while` body of `_schedule_subjects`.  The
Python list used as `backtrack_stack` is modelled with its top at the
head (`pop()` takes the most recent element); since nothing in the source
ever appends to the stack, the pop branch is unreachable from the empty
initial stack either way (see `schedule_run_eq_foldl`), so `.erase` for
`assignments.remove` and truncated subtraction for the index decrement in
that branch never come into play. -/
def schedule_step (subjects : List Subject) (data : GenData)
    (time_slots : List TimeSlot) (settings : GenerationSettings)
    (ls : LoopState) : LoopState :=
  match subjects[ls.idx]? with
  | none => ls
  | some subject =>
    match find_best_placement ls.st subject data time_slots settings with
    | some p =>
      let a := mkAssignment subject p
      { st :=
          update_schedules
            { ls.st with assignments := ls.st.assignments ++ [a] } a p
        backtrack_stack := []
        idx := ls.idx + 1 }
    | none =>
      match ls.backtrack_stack with
      | last :: rest =>
        if rest.length + 1 < max_backtrack_depth then
          { st :=
              remove_from_schedules
                { ls.st with
                    assignments := ls.st.assignments.erase last }
                last
            backtrack_stack := rest
            idx := ls.idx - 1 }
        else
          { ls with
              st :=
                { ls.st with
                    conflicts :=
                      ls.st.conflicts ++ [mkConstraintConflict subject] }
              idx := ls.idx + 1 }
      | [] =>
        { ls with
            st :=
              { ls.st with
                  conflicts :=
                    ls.st.conflicts ++ [mkConstraintConflict subject] }
            idx := ls.idx + 1 }

/-- Fuel-indexed run of the `while current_subject_index < len(subjects)`
loop.  `schedule_loop_complete` below shows that `subjects.length` fuel
suffices to drive the loop to its exit condition, so the fuelled model
coincides with the Python loop. -/
def schedule_run (subjects : List Subject) (data : GenData)
    (time_slots : List TimeSlot) (settings : GenerationSettings) :
    Nat → LoopState → LoopState
  | 0, ls => ls
  | fuel + 1, ls =>
    if ls.idx < subjects.length then
      schedule_run subjects data time_slots settings fuel
        (schedule_step subjects data time_slots settings ls)
    else ls

/-- One iteration of the `_validate_assignments` loop: the accumulator
pairs the set of seen `faculty_map` keys with the conflicts produced so
far. -/
def validate_step (acc : List String × List Conflict)
    (a : ClassAssignment) : List String × List Conflict :=
  let key := toString a.faculty_id ++ "-" ++ a.day ++ "-" ++ a.start_time
  if acc.1.contains key then
    (acc.1,
      acc.2 ++
        [⟨"faculty", "Unknown",
          "Faculty double-booked at " ++ a.day ++ " " ++ a.start_time,
          "critical"⟩])
  else (acc.1 ++ [key], acc.2)

/-- Embeds `TimetableScheduler._validate_assignments`: flag duplicate
`(faculty_id, day, start_time)` keys.  (The source reads
`assignment.subject.code if hasattr(...)`; the engine-built records carry
no such attribute, so the code falls to `'Unknown'`.) -/
def validate_assignments (assignments : List ClassAssignment) :
    List Conflict :=
  (assignments.foldl validate_step ([], [])).2

/-- Embeds `TimetableScheduler._schedule_subjects`: run the placement loop
from a fresh state, then append the validation-pass conflicts. -/
def schedule_subjects (subjects : List Subject) (data : GenData)
    (time_slots : List TimeSlot) (settings : GenerationSettings) :
    SchedState :=
  let final :=
    schedule_run subjects data time_slots settings subjects.length
      ⟨initState, [], 0⟩
  { final.st with
      conflicts :=
        final.st.conflicts ++ validate_assignments final.st.assignments }

/-- Embeds the pure core of `TimetableScheduler.generate_timetable`
(after the external `_load_generation_data` step): reset state, build the
time grid, prioritize, schedule, and return `(assignments, conflicts)`. -/
def generate_timetable (data : GenData) (settings : GenerationSettings) :
    List ClassAssignment × List Conflict :=
  let time_slots := generate_time_slots settings
  let sorted_subjects := prioritize_subjects data.subjects
  let st := schedule_subjects sorted_subjects data time_slots settings
  (st.assignments, st.conflicts)

/-! Round-trip facts about the time-string helpers: `minutes_to_time`
followed by `time_to_minutes` is the identity, hence `minutes_to_time` is
injective.  These drive all reasoning that crosses the string/minute
boundary. -/

theorem digitVal_digitChar {d : Nat} (h : d < 10) :
    digitVal (digitChar d) = some d := by
  interval_cases d <;> decide

theorem digitChar_ne_colon {d : Nat} (h : d < 10) : digitChar d ≠ ':' := by
  interval_cases d <;> decide

theorem foldl_parseStep_digitsOfAux :
    ∀ fuel n a, n ≤ fuel →
      (digitsOfAux fuel n).foldl parseStep (some a) =
        some (a * 10 ^ (digitsOfAux fuel n).length + n) := by
  intro fuel
  induction fuel with
  | zero =>
    intro n a h
    interval_cases n
    simp [digitsOfAux, parseStep, digitVal_digitChar (by omega : (0:Nat) < 10)]
  | succ f ih =>
    intro n a h
    by_cases h10 : n < 10
    · simp [digitsOfAux, h10, parseStep, digitVal_digitChar h10]
    · have hd : n / 10 ≤ f := by omega
      simp only [digitsOfAux, if_neg h10, List.foldl_append, List.length_append,
        List.length_cons, List.length_nil]
      rw [ih (n / 10) a hd]
      simp only [List.foldl_cons, List.foldl_nil, parseStep,
        digitVal_digitChar (Nat.mod_lt n (by omega) : n % 10 < 10)]
      have hpow : (10:Nat) ^ ((digitsOfAux f (n / 10)).length + (0 + 1)) =
          10 ^ (digitsOfAux f (n / 10)).length * 10 := by
        simp [pow_succ]
      rw [hpow]
      simp only [Option.some.injEq]
      rw [Nat.add_mul, Nat.mul_assoc]
      omega

theorem digitsOfAux_ne_nil (fuel n : Nat) : digitsOfAux fuel n ≠ [] := by
  cases fuel with
  | zero => simp [digitsOfAux]
  | succ f =>
    by_cases h10 : n < 10 <;> simp [digitsOfAux, h10]

theorem parseInt_nonempty {cs : List Char} (h : cs ≠ []) :
    parseInt cs = cs.foldl parseStep (some 0) := by
  cases cs with
  | nil => exact absurd rfl h
  | cons c cs => rfl

theorem parseInt_digitsOf (n : Nat) : parseInt (digitsOf n) = some n := by
  rw [digitsOf, parseInt_nonempty (digitsOfAux_ne_nil n n)]
  rw [foldl_parseStep_digitsOfAux n n 0 (le_refl n)]
  simp

theorem parseInt_pad2 (n : Nat) : parseInt (pad2 n) = some n := by
  by_cases h10 : n < 10
  · have : pad2 n = '0' :: digitsOf n := by simp [pad2, h10]
    rw [this, parseInt_nonempty (by simp)]
    simp only [List.foldl_cons]
    have h0 : parseStep (some 0) '0' = some 0 := by decide
    rw [h0, digitsOf, foldl_parseStep_digitsOfAux n n 0 (le_refl n)]
    simp
  · have : pad2 n = digitsOf n := by simp [pad2, h10]
    rw [this, parseInt_digitsOf]

theorem digitsOfAux_no_colon :
    ∀ fuel n, n ≤ fuel → ∀ c ∈ digitsOfAux fuel n, c ≠ ':' := by
  intro fuel
  induction fuel with
  | zero =>
    intro n h c hc
    interval_cases n
    simp only [digitsOfAux, List.mem_singleton] at hc
    subst hc
    exact digitChar_ne_colon (by omega)
  | succ f ih =>
    intro n h c hc
    by_cases h10 : n < 10
    · simp only [digitsOfAux, if_pos h10, List.mem_singleton] at hc
      subst hc
      exact digitChar_ne_colon h10
    · simp only [digitsOfAux, if_neg h10, List.mem_append,
        List.mem_singleton] at hc
      rcases hc with hc | hc
      · exact ih (n / 10) (by omega) c hc
      · subst hc
        exact digitChar_ne_colon (Nat.mod_lt n (by omega))

theorem pad2_no_colon (n : Nat) : ∀ c ∈ pad2 n, c ≠ ':' := by
  intro c hc
  by_cases h10 : n < 10
  · simp only [pad2, if_pos h10, List.mem_cons] at hc
    rcases hc with hc | hc
    · subst hc; decide
    · exact digitsOfAux_no_colon n n (le_refl n) c hc
  · simp only [pad2, if_neg h10] at hc
    exact digitsOfAux_no_colon n n (le_refl n) c hc

theorem splitOnColon_no_colon :
    ∀ a : List Char, (∀ c ∈ a, c ≠ ':') → splitOnColon a = [a] := by
  intro a
  induction a with
  | nil => intro _; rfl
  | cons c a ih =>
    intro h
    have hc : ¬c = ':' := h c (by simp)
    have ha := ih fun x hx => h x (by simp [hx])
    simp only [splitOnColon, if_neg hc, ha]

theorem splitOnColon_append (a b : List Char) (h : ∀ c ∈ a, c ≠ ':') :
    splitOnColon (a ++ ':' :: b) = a :: splitOnColon b := by
  induction a with
  | nil => simp [splitOnColon]
  | cons c a ih =>
    have hc : ¬c = ':' := h c (by simp)
    have ha := ih fun x hx => h x (by simp [hx])
    rw [List.cons_append, splitOnColon, if_neg hc, ha]

theorem time_to_minutes_minutes_to_time (m : Nat) :
    time_to_minutes (minutes_to_time m) = m := by
  have hsplit :
      splitOnColon (pad2 (m / 60) ++ ':' :: pad2 (m % 60)) =
        [pad2 (m / 60), pad2 (m % 60)] := by
    rw [splitOnColon_append _ _ (pad2_no_colon (m / 60)),
      splitOnColon_no_colon _ (pad2_no_colon (m % 60))]
  simp only [time_to_minutes, minutes_to_time, hsplit, List.map_cons,
    List.map_nil, parseInt_pad2]
  omega

theorem minutes_to_time_inj {a b : Nat}
    (h : minutes_to_time a = minutes_to_time b) : a = b := by
  have := congrArg time_to_minutes h
  rwa [time_to_minutes_minutes_to_time, time_to_minutes_minutes_to_time]
    at this

/-! Generic facts about `List.findSome?`, Python's first-match loops. -/

theorem findSome?_cons_eq {α β : Type} (x : α) (xs : List α)
    (f : α → Option β) :
    (x :: xs).findSome? f =
      match f x with
      | some v => some v
      | none => xs.findSome? f := rfl

theorem findSome?_eq_some_mem {α β : Type} {l : List α} {f : α → Option β}
    {b : β} (h : l.findSome? f = some b) : ∃ a ∈ l, f a = some b := by
  induction l with
  | nil => simp [List.findSome?] at h
  | cons x xs ih =>
    rw [findSome?_cons_eq] at h
    cases hx : f x with
    | some v =>
      rw [hx] at h
      exact ⟨x, by simp, by rw [hx]; exact h⟩
    | none =>
      rw [hx] at h
      obtain ⟨a, ha, hfa⟩ := ih h
      exact ⟨a, by simp [ha], hfa⟩

theorem findSome?_first {α β : Type} {l : List α} {f : α → Option β}
    {b : β} (h : l.findSome? f = some b) :
    ∃ (i : Nat) (a : α), l[i]? = some a ∧ f a = some b ∧
      ∀ j, j < i → ∀ x, l[j]? = some x → f x = none := by
  induction l with
  | nil => simp [List.findSome?] at h
  | cons y ys ih =>
    rw [findSome?_cons_eq] at h
    cases hy : f y with
    | some v =>
      rw [hy] at h
      refine ⟨0, y, by simp, by rw [hy]; exact h, ?_⟩
      intro j hj
      omega
    | none =>
      rw [hy] at h
      obtain ⟨i, a, hget, hfa, hmin⟩ := ih h
      refine ⟨i + 1, a, by simpa using hget, hfa, ?_⟩
      intro j hj x hx
      cases j with
      | zero =>
        simp only [List.getElem?_cons_zero, Option.some.injEq] at hx
        subst hx
        exact hy
      | succ j =>
        simp only [List.getElem?_cons_succ] at hx
        exact hmin j (by omega) x hx

theorem findSome?_of_all_none {α β : Type} {l : List α}
    {f : α → Option β} (h : ∀ a ∈ l, f a = none) :
    l.findSome? f = none := by
  induction l with
  | nil => rfl
  | cons x xs ih =>
    rw [findSome?_cons_eq, h x (by simp)]
    exact ih fun a ha => h a (by simp [ha])

theorem findSome?_congr_map {α β γ : Type} {l : List α}
    {f : α → Option γ} {h : α → Option β} {g : β → γ}
    (hpt : ∀ x ∈ l, f x = Option.map g (h x)) :
    l.findSome? f = Option.map g (l.findSome? h) := by
  induction l with
  | nil => rfl
  | cons x xs ih =>
    rw [findSome?_cons_eq, findSome?_cons_eq, hpt x (by simp)]
    cases h x with
    | some v => rfl
    | none => exact ih fun a ha => hpt a (by simp [ha])

theorem findSome?_map {α α' β : Type} (m : α → α') (l : List α)
    (f : α' → Option β) :
    (l.map m).findSome? f = l.findSome? fun x => f (m x) := by
  induction l with
  | nil => rfl
  | cons x xs ih =>
    rw [List.map_cons, findSome?_cons_eq, findSome?_cons_eq]
    cases f (m x) with
    | some v => rfl
    | none => exact ih

/-! Bridge from the fuelled `while` loop to a left fold.  The
`backtrack_stack` starts empty, is cleared on every successful placement,
and — because nothing is ever pushed onto it — the pop branch of
`_schedule_subjects` is unreachable, so every iteration advances the
index by one and `subjects.length` fuel drives the loop to its exit
condition. -/

/-- Effect of one loop iteration of `_schedule_subjects` on the
generation state: place the subject if possible, otherwise record a
`constraint` conflict. -/
def place_one (data : GenData) (time_slots : List TimeSlot)
    (settings : GenerationSettings) (st : SchedState)
    (subject : Subject) : SchedState :=
  match find_best_placement st subject data time_slots settings with
  | some p =>
    update_schedules
      { st with assignments := st.assignments ++ [mkAssignment subject p] }
      (mkAssignment subject p) p
  | none =>
    { st with conflicts := st.conflicts ++ [mkConstraintConflict subject] }

theorem schedule_step_empty_stack (subjects : List Subject)
    (data : GenData) (time_slots : List TimeSlot)
    (settings : GenerationSettings) (st : SchedState) (k : Nat)
    (h : k < subjects.length) :
    schedule_step subjects data time_slots settings ⟨st, [], k⟩ =
      ⟨place_one data time_slots settings st subjects[k], [], k + 1⟩ := by
  unfold schedule_step place_one
  rw [List.getElem?_eq_getElem h]
  dsimp only
  cases hfp : find_best_placement st subjects[k] data time_slots settings <;>
    rfl

theorem schedule_run_eq_foldl (subjects : List Subject) (data : GenData)
    (time_slots : List TimeSlot) (settings : GenerationSettings) :
    ∀ (n k : Nat) (st : SchedState), k + n = subjects.length →
      schedule_run subjects data time_slots settings n ⟨st, [], k⟩ =
        ⟨(subjects.drop k).foldl (place_one data time_slots settings) st,
          [], subjects.length⟩ := by
  intro n
  induction n with
  | zero =>
    intro k st hk
    have hk' : k = subjects.length := by omega
    subst hk'
    simp [schedule_run, List.drop_length]
  | succ m ih =>
    intro k st hk
    have hklt : k < subjects.length := by omega
    rw [schedule_run]
    simp only [if_pos hklt]
    rw [schedule_step_empty_stack subjects data time_slots settings st k hklt]
    rw [ih (k + 1) _ (by omega)]
    rw [List.drop_eq_getElem_cons hklt, List.foldl_cons]

theorem schedule_subjects_eq_foldl (subjects : List Subject)
    (data : GenData) (time_slots : List TimeSlot)
    (settings : GenerationSettings) :
    schedule_subjects subjects data time_slots settings =
      { subjects.foldl (place_one data time_slots settings) initState with
          conflicts :=
            (subjects.foldl (place_one data time_slots settings)
                initState).conflicts ++
              validate_assignments
                (subjects.foldl (place_one data time_slots settings)
                    initState).assignments } := by
  unfold schedule_subjects
  rw [schedule_run_eq_foldl subjects data time_slots settings
    subjects.length 0 initState (by omega)]
  rfl

/-! Facts about the stable sort in `_prioritize_subjects`. -/

theorem length_insertSorted (x : Subject) (l : List Subject) :
    (insertSorted x l).length = l.length + 1 := by
  induction l with
  | nil => rfl
  | cons y ys ih =>
    by_cases h : keyLt (sortKey x) (sortKey y) = true
    · simp [insertSorted, h]
    · simp only [insertSorted, Bool.not_eq_true] at h ⊢
      rw [h]
      simp [ih]

theorem length_foldl_insertSorted (l acc : List Subject) :
    (l.foldl (fun a s => insertSorted s a) acc).length =
      acc.length + l.length := by
  induction l generalizing acc with
  | nil => simp
  | cons s ss ih =>
    rw [List.foldl_cons, ih, length_insertSorted]
    simp only [List.length_cons]
    omega

theorem length_prioritize_subjects (l : List Subject) :
    (prioritize_subjects l).length = l.length := by
  rw [prioritize_subjects, length_foldl_insertSorted]
  simp

theorem insertSorted_map (m : Subject → Subject)
    (hkey : ∀ s, sortKey (m s) = sortKey s) (x : Subject)
    (l : List Subject) :
    insertSorted (m x) (l.map m) = (insertSorted x l).map m := by
  induction l with
  | nil => rfl
  | cons y ys ih =>
    by_cases h : keyLt (sortKey x) (sortKey y) = true
    · simp only [List.map_cons, insertSorted, hkey, h, if_pos]
    · simp only [Bool.not_eq_true] at h
      simp only [List.map_cons, insertSorted, hkey, h, Bool.false_eq_true,
        if_false, ih]

theorem prioritize_subjects_map (m : Subject → Subject)
    (hkey : ∀ s, sortKey (m s) = sortKey s) (l : List Subject) :
    prioritize_subjects (l.map m) = (prioritize_subjects l).map m := by
  unfold prioritize_subjects
  have aux : ∀ (l acc : List Subject),
      (l.map m).foldl (fun a s => insertSorted s a) (acc.map m) =
        (l.foldl (fun a s => insertSorted s a) acc).map m := by
    intro l
    induction l with
    | nil => intro acc; simp
    | cons s ss ih =>
      intro acc
      rw [List.map_cons, List.foldl_cons, List.foldl_cons,
        insertSorted_map m hkey, ih]
  have := aux l []
  simpa using this

/-! Postconditions of `_find_best_placement`: any returned placement is
assembled from a catalog faculty, a catalog section, a grid slot that
passed `_can_accommodate_duration`, and a kind-matching venue, and it
passed `_is_valid_placement`. -/

theorem faculty_search_eq_some {st : SchedState} {subject : Subject}
    {data : GenData} {time_slots : List TimeSlot}
    {settings : GenerationSettings} {f : Faculty} {p : Placement}
    (h : faculty_search st subject data time_slots settings f = some p) :
    p.faculty = f ∧ p.sec ∈ data.sections ∧
      p.venue ∈ data.venues.filter (venue_matches subject) ∧
      p.duration = placement_duration settings subject ∧
      ∃ slot ∈ time_slots, p.day = slot.day ∧
        p.start_time = slot.start_time ∧
        can_accommodate_duration slot
          (placement_duration settings subject) time_slots = true ∧
        is_valid_placement st f p.sec p.venue slot
          (placement_duration settings subject) settings = true := by
  unfold faculty_search at h
  obtain ⟨sec, hsec, h1⟩ := findSome?_eq_some_mem h
  obtain ⟨slot, hslot, h2⟩ := findSome?_eq_some_mem h1
  dsimp only at h2
  cases hcan : can_accommodate_duration slot
      (placement_duration settings subject) time_slots with
  | false => rw [hcan] at h2; simp at h2
  | true =>
    rw [hcan] at h2
    simp only [Bool.not_true, Bool.false_eq_true, if_false] at h2
    obtain ⟨venue, hven, h3⟩ := findSome?_eq_some_mem h2
    cases hval : is_valid_placement st f sec venue slot
        (placement_duration settings subject) settings with
    | false => rw [hval] at h3; simp at h3
    | true =>
      rw [hval] at h3
      simp only [if_true, Option.some.injEq] at h3
      subst h3
      exact ⟨rfl, hsec, hven, rfl,
        slot, hslot, rfl, rfl, hcan, hval⟩

theorem find_best_placement_eq_some {st : SchedState} {subject : Subject}
    {data : GenData} {time_slots : List TimeSlot}
    {settings : GenerationSettings} {p : Placement}
    (h : find_best_placement st subject data time_slots settings = some p) :
    ∃ f ∈ data.faculties,
      faculty_search st subject data time_slots settings f = some p := by
  unfold find_best_placement at h
  exact findSome?_eq_some_mem h

/-! Shape of the generated time grid. -/

theorem mem_hour_range {start stop t : Nat} (h : t ∈ hour_range start stop) :
    ∃ k : Nat, t = start + 60 * k ∧ start + 60 * k < stop := by
  unfold hour_range at h
  rw [List.mem_map] at h
  obtain ⟨k, hk, rfl⟩ := h
  rw [List.mem_range] at hk
  exact ⟨k, rfl, by omega⟩

theorem mem_generate_time_slots {slot : TimeSlot}
    {settings : GenerationSettings}
    (h : slot ∈ generate_time_slots settings) :
    ∃ day ∈ settings.days, ∃ k : Nat,
      slot =
        ⟨minutes_to_time (time_to_minutes settings.start_time + 60 * k),
          minutes_to_time
            (time_to_minutes settings.start_time + 60 * k + 60), day⟩ ∧
      time_to_minutes settings.start_time + 60 * k <
        time_to_minutes settings.end_time ∧
      ¬(time_to_minutes settings.lunch_start ≤
          time_to_minutes settings.start_time + 60 * k ∧
        time_to_minutes settings.start_time + 60 * k <
          time_to_minutes settings.lunch_end) := by
  unfold generate_time_slots at h
  rw [List.mem_flatMap] at h
  obtain ⟨day, hday, hmem⟩ := h
  rw [List.mem_filterMap] at hmem
  obtain ⟨t, ht, heq⟩ := hmem
  obtain ⟨k, rfl, hlt⟩ := mem_hour_range ht
  by_cases hl : time_to_minutes settings.lunch_start ≤
      time_to_minutes settings.start_time + 60 * k ∧
      time_to_minutes settings.start_time + 60 * k <
        time_to_minutes settings.lunch_end
  · rw [if_pos hl] at heq
    exact absurd heq (by simp)
  · rw [if_neg hl] at heq
    simp only [Option.some.injEq] at heq
    exact ⟨day, hday, k, heq.symm, hlt, hl⟩

/-! Invariants of the scheduling fold. -/

theorem update_schedules_assignments (st : SchedState)
    (a : ClassAssignment) (p : Placement) :
    (update_schedules st a p).assignments = st.assignments := rfl

theorem update_schedules_conflicts (st : SchedState)
    (a : ClassAssignment) (p : Placement) :
    (update_schedules st a p).conflicts = st.conflicts := rfl

theorem place_one_some {data : GenData} {time_slots : List TimeSlot}
    {settings : GenerationSettings} {st : SchedState} {s : Subject}
    {p : Placement}
    (hfp : find_best_placement st s data time_slots settings = some p) :
    place_one data time_slots settings st s =
      update_schedules
        { st with assignments := st.assignments ++ [mkAssignment s p] }
        (mkAssignment s p) p := by
  unfold place_one
  rw [hfp]

theorem place_one_none {data : GenData} {time_slots : List TimeSlot}
    {settings : GenerationSettings} {st : SchedState} {s : Subject}
    (hfp : find_best_placement st s data time_slots settings = none) :
    place_one data time_slots settings st s =
      { st with conflicts := st.conflicts ++ [mkConstraintConflict s] } := by
  unfold place_one
  rw [hfp]

theorem foldl_place_one_assignments {data : GenData}
    {time_slots : List TimeSlot} {settings : GenerationSettings}
    (Q : ClassAssignment → Prop)
    (hQ : ∀ (st : SchedState) (subject : Subject) (p : Placement),
      find_best_placement st subject data time_slots settings = some p →
      Q (mkAssignment subject p)) :
    ∀ (l : List Subject) (st : SchedState),
      (∀ a ∈ st.assignments, Q a) →
      ∀ a ∈ (l.foldl (place_one data time_slots settings) st).assignments,
        Q a := by
  intro l
  induction l with
  | nil => intro st h a ha; exact h a ha
  | cons s ss ih =>
    intro st h a ha
    rw [List.foldl_cons] at ha
    refine ih (place_one data time_slots settings st s) ?_ a ha
    intro b hb
    cases hfp : find_best_placement st s data time_slots settings with
    | none =>
      rw [place_one_none hfp] at hb
      exact h b hb
    | some p =>
      rw [place_one_some hfp, update_schedules_assignments] at hb
      have hb' : b ∈ st.assignments ++ [mkAssignment s p] := hb
      rw [List.mem_append] at hb'
      rcases hb' with hb' | hb'
      · exact h b hb'
      · rw [List.mem_singleton] at hb'
        subst hb'
        exact hQ st s p hfp

theorem foldl_place_one_conflicts {data : GenData}
    {time_slots : List TimeSlot} {settings : GenerationSettings} :
    ∀ (l : List Subject) (st : SchedState) (c : Conflict),
      c ∈ (l.foldl (place_one data time_slots settings) st).conflicts →
      c ∈ st.conflicts ∨ ∃ s, c = mkConstraintConflict s := by
  intro l
  induction l with
  | nil => intro st c hc; exact Or.inl hc
  | cons s ss ih =>
    intro st c hc
    rw [List.foldl_cons] at hc
    rcases ih _ c hc with hc' | hc'
    · cases hfp : find_best_placement st s data time_slots settings with
      | some p =>
        rw [place_one_some hfp, update_schedules_conflicts] at hc'
        exact Or.inl hc'
      | none =>
        rw [place_one_none hfp] at hc'
        have hmem : c ∈ st.conflicts ++ [mkConstraintConflict s] := hc'
        rw [List.mem_append] at hmem
        rcases hmem with hm | hm
        · exact Or.inl hm
        · exact Or.inr ⟨s, by simpa using hm⟩
    · exact Or.inr hc'

theorem foldl_place_one_counts {data : GenData}
    {time_slots : List TimeSlot} {settings : GenerationSettings} :
    ∀ (l : List Subject) (st : SchedState),
      (l.foldl (place_one data time_slots settings) st).assignments.length +
        ((l.foldl (place_one data time_slots settings) st).conflicts.filter
          (fun c => c.type == "constraint")).length =
      st.assignments.length +
        (st.conflicts.filter (fun c => c.type == "constraint")).length +
        l.length := by
  intro l
  induction l with
  | nil => intro st; simp
  | cons s ss ih =>
    intro st
    rw [List.foldl_cons, ih]
    cases hfp : find_best_placement st s data time_slots settings with
    | some p =>
      rw [place_one_some hfp, update_schedules_assignments,
        update_schedules_conflicts]
      have ha : ({ st with
          assignments := st.assignments ++ [mkAssignment s p] } :
            SchedState).assignments = st.assignments ++ [mkAssignment s p] :=
        rfl
      have hc : ({ st with
          assignments := st.assignments ++ [mkAssignment s p] } :
            SchedState).conflicts = st.conflicts := rfl
      rw [ha, hc, List.length_append]
      simp only [List.length_cons, List.length_nil]
      omega
    | none =>
      rw [place_one_none hfp]
      have ha : ({ st with
          conflicts := st.conflicts ++ [mkConstraintConflict s] } :
            SchedState).assignments = st.assignments := rfl
      have hc : ({ st with
          conflicts := st.conflicts ++ [mkConstraintConflict s] } :
            SchedState).conflicts =
          st.conflicts ++ [mkConstraintConflict s] := rfl
      rw [ha, hc, List.filter_append, List.length_append]
      have hone :
          (List.filter (fun c => c.type == "constraint")
            [mkConstraintConflict s]).length = 1 := by
        simp [mkConstraintConflict]
      rw [hone]
      simp only [List.length_cons]
      omega

theorem validate_assignments_mem (l : List ClassAssignment) (c : Conflict)
    (hc : c ∈ validate_assignments l) :
    c.type = "faculty" ∧ c.severity = "critical" := by
  have aux : ∀ (l : List ClassAssignment)
      (acc : List String × List Conflict),
      (∀ c ∈ acc.2, c.type = "faculty" ∧ c.severity = "critical") →
      ∀ c ∈ (l.foldl validate_step acc).2,
        c.type = "faculty" ∧ c.severity = "critical" := by
    intro l
    induction l with
    | nil => intro acc h c hc; exact h c hc
    | cons a as ih =>
      intro acc h c hc
      rw [List.foldl_cons] at hc
      refine ih (validate_step acc a) ?_ c hc
      intro d hd
      unfold validate_step at hd
      by_cases hk : acc.1.contains
          (toString a.faculty_id ++ "-" ++ a.day ++ "-" ++ a.start_time) =
            true
      · rw [if_pos hk] at hd
        have hd' : d ∈ acc.2 ++
            [(⟨"faculty", "Unknown",
              "Faculty double-booked at " ++ a.day ++ " " ++ a.start_time,
              "critical"⟩ : Conflict)] := hd
        rw [List.mem_append] at hd'
        rcases hd' with hd' | hd'
        · exact h d hd'
        · rw [List.mem_singleton] at hd'
          subst hd'
          exact ⟨rfl, rfl⟩
      · rw [if_neg hk] at hd
        exact h d hd
  exact aux l ([], []) (by simp) c hc

/-! With a slot accepted by `_can_accommodate_duration`, every hour of the
placed range is itself a generated grid hour. -/

theorem grid_slot_times {settings : GenerationSettings} {slot : TimeSlot}
    {d : Nat} (hmem : slot ∈ generate_time_slots settings)
    (hcan :
      can_accommodate_duration slot d (generate_time_slots settings) =
        true) :
    ∀ i, i < d → ∃ k : Nat,
      time_to_minutes slot.start_time + i * 60 =
        time_to_minutes settings.start_time + 60 * k ∧
      time_to_minutes settings.start_time + 60 * k <
        time_to_minutes settings.end_time ∧
      ¬(time_to_minutes settings.lunch_start ≤
          time_to_minutes settings.start_time + 60 * k ∧
        time_to_minutes settings.start_time + 60 * k <
          time_to_minutes settings.lunch_end) := by
  intro i hi
  by_cases hd : (d == 1) = true
  · have hd1 : d = 1 := by simpa using hd
    subst hd1
    have hi0 : i = 0 := by omega
    subst hi0
    obtain ⟨day, _, k, hslot, hlt, hl⟩ := mem_generate_time_slots hmem
    refine ⟨k, ?_, hlt, hl⟩
    rw [hslot]
    show time_to_minutes
        (minutes_to_time (time_to_minutes settings.start_time + 60 * k)) +
          0 * 60 = _
    rw [time_to_minutes_minutes_to_time]
    omega
  · unfold can_accommodate_duration at hcan
    rw [if_neg hd] at hcan
    rw [List.all_eq_true] at hcan
    have hq := hcan i (List.mem_range.mpr hi)
    dsimp only at hq
    rw [List.any_eq_true] at hq
    obtain ⟨s, hs, hmatch⟩ := hq
    rw [Bool.and_eq_true, beq_iff_eq] at hmatch
    have hstart := hmatch.1
    obtain ⟨day', _, k', hs_eq, hlt', hl'⟩ := mem_generate_time_slots hs
    refine ⟨k', ?_, hlt', hl'⟩
    rw [hs_eq] at hstart
    have hstart' :
        minutes_to_time (time_to_minutes settings.start_time + 60 * k') =
          minutes_to_time (time_to_minutes slot.start_time + i * 60) :=
      hstart
    exact (minutes_to_time_inj hstart').symm

/-! Specification-side predicates for the working-hours and lunch-window
properties of an assignment (the spec's "[start, start+duration) lies
within working hours" and "intersects the configured lunch window"). -/

/-- The assignment's `[start, start + duration)` range lies inside the
configured `[start_time, end_time)` working window. -/
def assignment_within_hours (settings : GenerationSettings)
    (a : ClassAssignment) : Bool :=
  decide (time_to_minutes settings.start_time ≤
      time_to_minutes a.start_time) &&
    decide (time_to_minutes a.start_time + a.duration * 60 ≤
      time_to_minutes settings.end_time)

/-- The assignment's `[start, start + duration)` range has non-empty
intersection with the configured `[lunch_start, lunch_end)` window. -/
def assignment_meets_lunch (settings : GenerationSettings)
    (a : ClassAssignment) : Bool :=
  decide
    (max (time_to_minutes a.start_time)
        (time_to_minutes settings.lunch_start) <
      min (time_to_minutes a.start_time + a.duration * 60)
        (time_to_minutes settings.lunch_end))

theorem generate_timetable_assignments_spec {data : GenData}
    {settings : GenerationSettings} :
    ∀ a ∈ (generate_timetable data settings).1,
      ∃ slot ∈ generate_time_slots settings,
        a.start_time = slot.start_time ∧
        can_accommodate_duration slot a.duration
          (generate_time_slots settings) = true := by
  intro a ha
  have hgen : (generate_timetable data settings).1 =
      ((prioritize_subjects data.subjects).foldl
        (place_one data (generate_time_slots settings) settings)
        initState).assignments := by
    show (schedule_subjects (prioritize_subjects data.subjects) data
        (generate_time_slots settings) settings).assignments = _
    rw [schedule_subjects_eq_foldl]
  rw [hgen] at ha
  refine foldl_place_one_assignments
    (fun a => ∃ slot ∈ generate_time_slots settings,
      a.start_time = slot.start_time ∧
      can_accommodate_duration slot a.duration
        (generate_time_slots settings) = true)
    ?_ _ initState (by intro b hb; simp [initState] at hb) a ha
  intro st subject p hfp
  obtain ⟨f, _, hfs⟩ := find_best_placement_eq_some hfp
  obtain ⟨_, _, _, hdur, slot, hslot, _, hstime, hcan, _⟩ :=
    faculty_search_eq_some hfs
  refine ⟨slot, hslot, ?_, ?_⟩
  · show p.start_time = slot.start_time
    exact hstime
  · show can_accommodate_duration slot p.duration
        (generate_time_slots settings) = true
    rw [hdur]
    exact hcan

theorem assignment_ok_of_aligned {settings : GenerationSettings}
    {a : ClassAssignment}
    (hdivE : 60 ∣ (time_to_minutes settings.end_time -
      time_to_minutes settings.start_time))
    (hdivL : 60 ∣ (time_to_minutes settings.lunch_start -
      time_to_minutes settings.start_time))
    (hQ : ∃ slot ∈ generate_time_slots settings,
      a.start_time = slot.start_time ∧
      can_accommodate_duration slot a.duration
        (generate_time_slots settings) = true) :
    assignment_within_hours settings a = true ∧
      assignment_meets_lunch settings a = false := by
  obtain ⟨slot, hslot, hstart, hcan⟩ := hQ
  obtain ⟨n, hn⟩ := hdivE
  obtain ⟨m, hm⟩ := hdivL
  have hours := grid_slot_times hslot hcan
  obtain ⟨day, _, k0, hsloteq, hlt0, _⟩ := mem_generate_time_slots hslot
  have ht : time_to_minutes slot.start_time =
      time_to_minutes settings.start_time + 60 * k0 := by
    rw [hsloteq]
    exact time_to_minutes_minutes_to_time _
  constructor
  · rw [assignment_within_hours, Bool.and_eq_true, decide_eq_true_iff,
      decide_eq_true_iff, hstart]
    rcases Nat.eq_zero_or_pos a.duration with hd0 | hdpos
    · rw [hd0]
      omega
    · obtain ⟨k1, he1, hlt1, _⟩ := hours (a.duration - 1) (by omega)
      omega
  · rw [assignment_meets_lunch, decide_eq_false_iff_not]
    intro hcontra
    obtain ⟨x, hx1, hx2, hx3, hx4⟩ :
        ∃ x, time_to_minutes slot.start_time ≤ x ∧
          time_to_minutes settings.lunch_start ≤ x ∧
          x < time_to_minutes slot.start_time + a.duration * 60 ∧
          x < time_to_minutes settings.lunch_end := by
      rw [hstart] at hcontra
      exact ⟨max (time_to_minutes slot.start_time)
          (time_to_minutes settings.lunch_start),
        le_max_left _ _, le_max_right _ _,
        lt_of_lt_of_le hcontra (min_le_left _ _),
        lt_of_lt_of_le hcontra (min_le_right _ _)⟩
    have hilt : (x - time_to_minutes slot.start_time) / 60 < a.duration :=
      by omega
    obtain ⟨ki, hei, _, hli⟩ :=
      hours ((x - time_to_minutes slot.start_time) / 60) hilt
    omega

/-! Equality lemmas showing which catalog fields the placement routine
actually reads: the faculty only through its `id`, the subject never
through `preferred_faculty_ids`. -/

theorem is_valid_placement_id {st : SchedState} {f f' : Faculty}
    (hid : f'.id = f.id) (sec : Section) (venue : Venue) (slot : TimeSlot)
    (duration : Nat) (settings : GenerationSettings) :
    is_valid_placement st f' sec venue slot duration settings =
      is_valid_placement st f sec venue slot duration settings := by
  unfold is_valid_placement faculty_has_conflict
    faculty_exceeds_daily_limit
  rw [hid]

theorem faculty_search_id_update {st : SchedState} {subject : Subject}
    {data : GenData} {time_slots : List TimeSlot}
    {settings : GenerationSettings} {f f' : Faculty}
    (hid : f'.id = f.id) :
    faculty_search st subject data time_slots settings f' =
      Option.map (fun p => { p with faculty := f' })
        (faculty_search st subject data time_slots settings f) := by
  simp only [faculty_search]
  refine findSome?_congr_map ?_
  intro sec _
  refine findSome?_congr_map ?_
  intro slot _
  dsimp only
  cases hcan : can_accommodate_duration slot
      (placement_duration settings subject) time_slots with
  | false => simp [hcan]
  | true =>
    simp only [hcan, Bool.not_true, Bool.false_eq_true, if_false]
    refine findSome?_congr_map ?_
    intro venue _
    rw [is_valid_placement_id hid sec venue slot
      (placement_duration settings subject) settings]
    cases is_valid_placement st f sec venue slot
        (placement_duration settings subject) settings with
    | true => simp
    | false => simp

theorem faculty_search_result_faculty {st : SchedState}
    {subject : Subject} {data : GenData} {time_slots : List TimeSlot}
    {settings : GenerationSettings} {f : Faculty} {p : Placement}
    (h : faculty_search st subject data time_slots settings f = some p) :
    p.faculty = f :=
  (faculty_search_eq_some h).1

theorem find_best_placement_faculty_map {st : SchedState}
    {subject : Subject} {data : GenData} {time_slots : List TimeSlot}
    {settings : GenerationSettings} (mf : Faculty → Faculty)
    (hid : ∀ f, (mf f).id = f.id) :
    find_best_placement st subject
        { data with faculties := data.faculties.map mf } time_slots
        settings =
      Option.map (fun p => { p with faculty := mf p.faculty })
        (find_best_placement st subject data time_slots settings) := by
  show (data.faculties.map mf).findSome?
      (faculty_search st subject data time_slots settings) = _
  rw [findSome?_map]
  refine findSome?_congr_map ?_
  intro f _
  rw [faculty_search_id_update (hid f)]
  cases hf : faculty_search st subject data time_slots settings f with
  | none => rfl
  | some p =>
    have hpf := faculty_search_result_faculty hf
    simp [hpf]

theorem place_one_faculty_invariant {data : GenData}
    {time_slots : List TimeSlot} {settings : GenerationSettings}
    (mf : Faculty → Faculty) (hid : ∀ f, (mf f).id = f.id)
    (st : SchedState) (s : Subject) :
    place_one { data with faculties := data.faculties.map mf } time_slots
        settings st s =
      place_one data time_slots settings st s := by
  unfold place_one
  rw [find_best_placement_faculty_map mf hid]
  cases hfp : find_best_placement st s data time_slots settings with
  | none => rfl
  | some p =>
    have hmk : mkAssignment s { p with faculty := mf p.faculty } =
        mkAssignment s p := by
      simp [mkAssignment, hid]
    show update_schedules
        { st with assignments :=
            st.assignments ++
              [mkAssignment s { p with faculty := mf p.faculty }] }
        (mkAssignment s { p with faculty := mf p.faculty })
        { p with faculty := mf p.faculty } =
      update_schedules
        { st with assignments := st.assignments ++ [mkAssignment s p] }
        (mkAssignment s p) p
    rw [hmk]
    rfl

theorem foldl_funext {α β : Type} (f g : β → α → β)
    (h : ∀ b a, f b a = g b a) (l : List α) (b : β) :
    l.foldl f b = l.foldl g b := by
  have hfg : f = g := funext fun b => funext fun a => h b a
  rw [hfg]

theorem generate_timetable_eq (data : GenData)
    (settings : GenerationSettings) :
    generate_timetable data settings =
      (((prioritize_subjects data.subjects).foldl
          (place_one data (generate_time_slots settings) settings)
          initState).assignments,
        ((prioritize_subjects data.subjects).foldl
          (place_one data (generate_time_slots settings) settings)
          initState).conflicts ++
          validate_assignments
            ((prioritize_subjects data.subjects).foldl
              (place_one data (generate_time_slots settings) settings)
              initState).assignments) := by
  show ((schedule_subjects (prioritize_subjects data.subjects) data
      (generate_time_slots settings) settings).assignments,
    (schedule_subjects (prioritize_subjects data.subjects) data
      (generate_time_slots settings) settings).conflicts) = _
  rw [schedule_subjects_eq_foldl]

theorem find_best_placement_no_slots (st : SchedState)
    (subject : Subject) (data : GenData)
    (settings : GenerationSettings) :
    find_best_placement st subject data [] settings = none := by
  unfold find_best_placement
  refine findSome?_of_all_none ?_
  intro f _
  unfold faculty_search
  refine findSome?_of_all_none ?_
  intro sec _
  rfl

theorem foldl_place_one_all_none {data : GenData}
    {time_slots : List TimeSlot} {settings : GenerationSettings}
    (hnone : ∀ (st : SchedState) (s : Subject),
      find_best_placement st s data time_slots settings = none) :
    ∀ (l : List Subject) (st : SchedState),
      l.foldl (place_one data time_slots settings) st =
        { st with
            conflicts := st.conflicts ++ l.map mkConstraintConflict } := by
  intro l
  induction l with
  | nil =>
    intro st
    rw [List.foldl_nil, List.map_nil, List.append_nil]
  | cons s ss ih =>
    intro st
    rw [List.foldl_cons, place_one_none (hnone st s), ih]
    simp [List.append_assoc]

/-! Concrete catalogs and settings used to evaluate the engine on the
claim scenarios. -/

def f1 : Faculty := ⟨1, "Alice", "F1", 6⟩

def f2 : Faculty := ⟨2, "Bob", "F2", 6⟩

def sec1 : Section := ⟨1, "A", ["A1"], 60⟩

def bigSec : Section := ⟨1, "A", [], 80⟩

def labVenue : Venue := ⟨1, "LAB-101", "lab", 30⟩

def lecVenue : Venue := ⟨2, "LT-101", "lecture", 60⟩

def labSubj : Subject := ⟨1, "LAB1", "Lab One", true, 2, []⟩

def lecSubj : Subject := ⟨2, "LEC1", "Lecture One", false, 1, []⟩

def lecSubjB : Subject := ⟨3, "LEC2", "Lecture Two", false, 1, []⟩

def prefSubj : Subject := ⟨5, "PREF1", "Preferred", false, 1, [2]⟩

/-- Working day 09:00-17:00 with lunch 13:00-14:00, Monday only. -/
def settings0 : GenerationSettings :=
  { start_time := "09:00", end_time := "17:00", lunch_start := "13:00",
    lunch_end := "14:00", days := ["Mon"], max_hours_per_day := 6,
    lab_duration := 2, lecture_duration := 1 }

/-- Degenerate configuration: the working window `[13:00, 13:30)` is not
a whole number of hours and the lunch window `[13:30, 14:30)` is not
hour-aligned relative to the start. -/
def settingsBad : GenerationSettings :=
  { start_time := "13:00", end_time := "13:30", lunch_start := "13:30",
    lunch_end := "14:30", days := ["Mon"], max_hours_per_day := 6,
    lab_duration := 2, lecture_duration := 1 }

/-- Working day 09:00-12:00, Monday only (lunch outside the window). -/
def settings4 : GenerationSettings :=
  { start_time := "09:00", end_time := "12:00", lunch_start := "13:00",
    lunch_end := "14:00", days := ["Mon"], max_hours_per_day := 6,
    lab_duration := 2, lecture_duration := 1 }

/-- A single one-hour slot: 09:00-10:00, Monday only. -/
def settings5 : GenerationSettings :=
  { start_time := "09:00", end_time := "10:00", lunch_start := "13:00",
    lunch_end := "14:00", days := ["Mon"], max_hours_per_day := 6,
    lab_duration := 2, lecture_duration := 1 }

/-- Inverted working window: `end_time` before `start_time`. -/
def settings6 : GenerationSettings :=
  { start_time := "10:00", end_time := "09:00", lunch_start := "13:00",
    lunch_end := "14:00", days := ["Mon"], max_hours_per_day := 6,
    lab_duration := 2, lecture_duration := 1 }

/-- One lab and one lecture subject, one faculty, one venue of each kind. -/
def data0 : GenData := ⟨[labSubj, lecSubj], [labVenue, lecVenue], [sec1], [f1]⟩

/-- One lecture subject, one faculty, one lecture venue. -/
def data2 : GenData := ⟨[lecSubj], [lecVenue], [sec1], [f1]⟩

/-- Two lecture subjects and two faculties sharing one lecture venue. -/
def data4 : GenData := ⟨[lecSubj, lecSubjB], [lecVenue], [sec1], [f1, f2]⟩

/-- A section of strength 80 with only a capacity-60 venue available. -/
def data7 : GenData := ⟨[lecSubj], [lecVenue], [bigSec], [f1]⟩

/-- A subject preferring faculty 2 in a catalog containing faculties 1
and 2. -/
def data8 : GenData := ⟨[prefSubj], [lecVenue], [sec1], [f1, f2]⟩

/-- The lab assignment the engine produces on `data0`/`settings0`. -/
def a01 : ClassAssignment := ⟨1, 1, 1, some "A1", 1, "Mon", "09:00", 2⟩

/-- The lecture assignment the engine produces on `data0`/`settings0`. -/
def a02 : ClassAssignment := ⟨2, 1, 1, none, 2, "Mon", "10:00", 1⟩

/-- Generation state after the engine has committed the 2-hour lab of
`data0` (the first unit in priority order). -/
def st_lab : SchedState :=
  [labSubj].foldl
    (place_one data0 (generate_time_slots settings0) settings0) initState

/-- Generation state after the engine has committed the first lecture of
`data4` (the first unit in priority order). -/
def st1 : SchedState :=
  [lecSubj].foldl
    (place_one data4 (generate_time_slots settings4) settings4) initState

/-- Spec-side measure of an instructor's current assigned teaching load
in minutes: the summed durations of the committed assignments that carry
the instructor's id. -/
def assigned_minutes (st : SchedState) (fid : Nat) : Nat :=
  (st.assignments.filter (fun a => a.faculty_id == fid)).foldl
    (fun acc a => acc + a.duration * 60) 0

/-- The placement `_find_best_placement` returns for `lecSubj` on the
fresh `data4` state. -/
def p4 : Placement := ⟨f1, sec1, none, lecVenue, "Mon", "09:00", 1⟩

/-- The placement `_find_best_placement` returns for `lecSubj` on the
fresh `data7` state. -/
def p7 : Placement := ⟨f1, bigSec, none, lecVenue, "Mon", "09:00", 1⟩

/-- Catalog with every subject's `preferred_faculty_ids` column rewritten
by `g` (all other data untouched). -/
def set_preferred (g : Subject → List Nat) (data : GenData) : GenData :=
  { data with
      subjects :=
        data.subjects.map fun s => { s with preferred_faculty_ids := g s } }

/-- Catalog with every faculty's `max_hours_per_day` column rewritten by
`g` (all other data untouched). -/
def set_faculty_max (g : Faculty → Nat) (data : GenData) : GenData :=
  { data with
      faculties :=
        data.faculties.map fun f => { f with max_hours_per_day := g f } }

/-- C1: the claim states that no two returned assignments share the same
faculty and day with overlapping `[start, start + duration)` ranges, and
in particular that a 2-hour lab blocks its faculty for both hours.  The
code violates this: `_slots_overlap` treats every stored reservation as
one hour long (`end2 = start2 + 60`), so on `data0`/`settings0` the
engine gives faculty 1 a lab covering 09:00-11:00 and then a lecture at
10:00 on the same day — the two ranges overlap on `[10:00, 11:00)`. -/
theorem C1_lab_blocks_only_first_hour :
    (generate_timetable data0 settings0).1 = [a01, a02] ∧
    a01.faculty_id = a02.faculty_id ∧ a01.day = a02.day ∧
    time_to_minutes a02.start_time <
      time_to_minutes a01.start_time + a01.duration * 60 ∧
    time_to_minutes a01.start_time <
      time_to_minutes a02.start_time + a02.duration * 60 := by
  refine ⟨by decide, by decide, by decide, by decide, by decide⟩

/-- C2 counterexample: with the misaligned configuration `settingsBad`
(working window `[13:00, 13:30)`, lunch `[13:30, 14:30)`) the engine
returns an assignment at 13:00 that both runs past the configured end of
the working day and intersects the configured lunch window, so the claim
as stated (for every configuration) is false. -/
theorem C2_counterexample :
    (generate_timetable data2 settingsBad).1.filter
      (fun a => !assignment_within_hours settingsBad a ||
        assignment_meets_lunch settingsBad a) =
      [⟨2, 1, 1, none, 2, "Mon", "13:00", 1⟩] := by decide

/-- C2 amended: provided the configured end of day and the lunch start
are hour-aligned relative to the configured start (both offsets divisible
by 60 minutes), every assignment returned by `generate_timetable` lies
within `[start_time, end_time)` on its single day and its
`[start, start + duration)` range does not intersect
`[lunch_start, lunch_end)`; in particular, with hours 09:00-17:00 and
lunch 13:00-14:00 no 2-hour lab starts at 12:00 or 16:00. -/
theorem C2_amended (data : GenData) (settings : GenerationSettings)
    (hE : 60 ∣ (time_to_minutes settings.end_time -
      time_to_minutes settings.start_time))
    (hL : 60 ∣ (time_to_minutes settings.lunch_start -
      time_to_minutes settings.start_time)) :
    (generate_timetable data settings).1.filter
      (fun a => !assignment_within_hours settings a ||
        assignment_meets_lunch settings a) = [] := by
  rw [List.filter_eq_nil_iff]
  intro a ha
  have hQ := generate_timetable_assignments_spec a ha
  obtain ⟨hw, hm⟩ := assignment_ok_of_aligned hE hL hQ
  simp [hw, hm]

/-- Witness for `C2_amended` at the concrete aligned configuration
`data0`/`settings0`. -/
theorem C2_witness :
    (60 ∣ (time_to_minutes settings0.end_time -
      time_to_minutes settings0.start_time)) ∧
    (60 ∣ (time_to_minutes settings0.lunch_start -
      time_to_minutes settings0.start_time)) ∧
    (generate_timetable data0 settings0).1.filter
      (fun a => !assignment_within_hours settings0 a ||
        assignment_meets_lunch settings0 a) = [] :=
  ⟨by decide, by decide, C2_amended data0 settings0 (by decide) (by decide)⟩

/-- C3: the claim (and the source's own inline comment "Longer duration
first") states that ties are broken by descending session duration.  The
code sorts by `s.duration` ascending: with two lectures of durations 2
(code "A") and 1 (code "B"), the duration-1 subject comes first, where
the claim requires the duration-2 subject first. -/
theorem C3_sorts_ascending_duration :
    prioritize_subjects
        [⟨1, "A", "Subject A", false, 2, []⟩,
          ⟨2, "B", "Subject B", false, 1, []⟩] =
      [⟨2, "B", "Subject B", false, 1, []⟩,
        ⟨1, "A", "Subject A", false, 2, []⟩] := by decide

/-- C4 counterexample: on `data4` the engine assigns both lectures to
faculty 1 even though, when the second lecture was placed, faculty 2 had
strictly smaller assigned load (0 minutes vs 60) and a feasible placement
existed for faculty 2 — so instructors are not scanned by ascending
current load. -/
theorem C4_counterexample :
    ((generate_timetable data4 settings4).1.map (fun a => a.faculty_id)) =
      [1, 1] ∧
    assigned_minutes st1 2 < assigned_minutes st1 1 ∧
    (find_best_placement st1 lecSubjB { data4 with faculties := [f2] }
        (generate_time_slots settings4) settings4).isSome = true := by
  refine ⟨by decide, by decide, by decide⟩

/-- C4 amended: `_find_best_placement` scans instructors in catalog
order, ignoring current load: the chosen instructor is the first faculty
in catalog order for which any feasible (section, slot, venue)
combination exists, and every earlier faculty admits none. -/
theorem C4_amended (st : SchedState) (subject : Subject) (data : GenData)
    (time_slots : List TimeSlot) (settings : GenerationSettings)
    (p : Placement)
    (h : find_best_placement st subject data time_slots settings =
      some p) :
    ∃ i : Nat, data.faculties[i]? = some p.faculty ∧
      faculty_search st subject data time_slots settings p.faculty =
        some p ∧
      ∀ j, j < i → ∀ f, data.faculties[j]? = some f →
        faculty_search st subject data time_slots settings f = none := by
  have h' : data.faculties.findSome?
      (faculty_search st subject data time_slots settings) = some p := h
  obtain ⟨i, f, hget, hf, hmin⟩ := findSome?_first h'
  have hpf : p.faculty = f := faculty_search_result_faculty hf
  exact ⟨i, by rw [hpf]; exact hget, by rw [hpf]; exact hf, hmin⟩

/-- Witness for `C4_amended` at the concrete input
`initState`/`lecSubj`/`data4`. -/
theorem C4_witness :
    (find_best_placement initState lecSubj data4
      (generate_time_slots settings4) settings4 = some p4) ∧
    ∃ i : Nat, data4.faculties[i]? = some p4.faculty ∧
      faculty_search initState lecSubj data4
        (generate_time_slots settings4) settings4 p4.faculty = some p4 ∧
      ∀ j, j < i → ∀ f, data4.faculties[j]? = some f →
        faculty_search initState lecSubj data4
          (generate_time_slots settings4) settings4 f = none :=
  ⟨by decide,
    C4_amended initState lecSubj data4 (generate_time_slots settings4)
      settings4 p4 (by decide)⟩

/-- C5: the claim states that an unplaceable unit triggers pop/undo/retry
whenever a committed assignment exists and the depth bound (50) is not
exceeded, with a conflict only otherwise.  The code never pushes onto
`backtrack_stack` (and `_remove_from_schedules` is a `pass` stub), so on
`data4`/`settings5` — one committed assignment, depth bound untouched —
the second lecture is abandoned with a `constraint` conflict instead of
any backtracking. -/
theorem C5_no_backtracking :
    generate_timetable data4 settings5 =
      ([⟨2, 1, 1, none, 2, "Mon", "09:00", 1⟩],
        [⟨"constraint", "LEC2", "No available slots found", "high"⟩]) := by
  decide

/-- C6 counterexample: with `end_time <= start_time` (`settings6`) the
time-grid builder raises nothing — no `InvalidConfiguration` exists in
the code — and the run proceeds to the placement stage, recording an
ordinary per-unit `constraint` conflict instead of aborting beforehand. -/
theorem C6_counterexample :
    generate_time_slots settings6 = [] ∧
    generate_timetable data2 settings6 =
      ([], [⟨"constraint", "LEC1", "No available slots found",
        "high"⟩]) := by
  refine ⟨by decide, by decide⟩

/-- C6 amended: `_generate_time_slots` performs no validation and never
fails: when `end_time <= start_time` it returns an empty slot list, and
generation proceeds to the placement stage where every unit is abandoned
with a `constraint` conflict (severity high) — there is no
`InvalidConfiguration` abort. -/
theorem C6_amended (data : GenData) (settings : GenerationSettings)
    (h : time_to_minutes settings.end_time ≤
      time_to_minutes settings.start_time) :
    generate_time_slots settings = [] ∧
    generate_timetable data settings =
      ([], (prioritize_subjects data.subjects).map
        mkConstraintConflict) := by
  have hslots : generate_time_slots settings = [] := by
    unfold generate_time_slots
    have hr : hour_range (time_to_minutes settings.start_time)
        (time_to_minutes settings.end_time) = [] := by
      unfold hour_range
      have h0 : (time_to_minutes settings.end_time -
          time_to_minutes settings.start_time + 59) / 60 = 0 := by omega
      rw [h0]
      rfl
    simp [hr]
  refine ⟨hslots, ?_⟩
  rw [generate_timetable_eq, hslots]
  rw [foldl_place_one_all_none
    (fun st s => find_best_placement_no_slots st s data settings)]
  simp [initState, validate_assignments]

/-- Witness for `C6_amended` at the concrete inverted configuration
`settings6`. -/
theorem C6_witness :
    (time_to_minutes settings6.end_time ≤
      time_to_minutes settings6.start_time) ∧
    generate_time_slots settings6 = [] ∧
    generate_timetable data2 settings6 =
      ([], (prioritize_subjects data2.subjects).map mkConstraintConflict) :=
  ⟨by decide, (C6_amended data2 settings6 (by decide)).1,
    (C6_amended data2 settings6 (by decide)).2⟩

/-- C7 counterexample: on `data7` the sole section has strength 80 and
the only venue of the matching kind has capacity 60, yet the engine still
places the unit there and reports no conflict — capacity is not a hard
constraint; it is never consulted at all. -/
theorem C7_counterexample :
    generate_timetable data7 settings4 =
      ([⟨2, 1, 1, none, 2, "Mon", "09:00", 1⟩], []) ∧
    data7.sections = [bigSec] ∧ bigSec.strength = 80 ∧
    data7.venues = [lecVenue] ∧ lecVenue.capacity = 60 := by
  refine ⟨by decide, by decide, by decide, by decide, by decide⟩

/-- C7 amended: the venue domain of `_find_best_placement` is filtered
only by kind — any returned placement uses a catalog venue whose
`venue_type` matches the subject kind (`lab` for labs, `lecture`
otherwise) — and seating capacity is never consulted, so under-capacity
venues are used like any other. -/
theorem C7_amended (st : SchedState) (subject : Subject) (data : GenData)
    (time_slots : List TimeSlot) (settings : GenerationSettings)
    (p : Placement)
    (h : find_best_placement st subject data time_slots settings =
      some p) :
    p.venue ∈ data.venues ∧
      p.venue.venue_type = (if subject.is_lab then "lab" else "lecture") := by
  obtain ⟨f, _, hfs⟩ := find_best_placement_eq_some h
  obtain ⟨_, _, hven, _, _⟩ := faculty_search_eq_some hfs
  rw [List.mem_filter] at hven
  refine ⟨hven.1, ?_⟩
  have hm := hven.2
  unfold venue_matches at hm
  cases hlab : subject.is_lab with
  | true =>
    rw [hlab] at hm
    simp only [Bool.true_and, Bool.not_true, Bool.false_and,
      Bool.or_false, beq_iff_eq] at hm
    simp [hm]
  | false =>
    rw [hlab] at hm
    simp only [Bool.false_and, Bool.not_false, Bool.true_and,
      Bool.false_or, beq_iff_eq] at hm
    simp [hm]

/-- Witness for `C7_amended` at the concrete input
`initState`/`lecSubj`/`data7`. -/
theorem C7_witness :
    (find_best_placement initState lecSubj data7
      (generate_time_slots settings4) settings4 = some p7) ∧
    p7.venue ∈ data7.venues ∧
      p7.venue.venue_type =
        (if lecSubj.is_lab then "lab" else "lecture") :=
  ⟨by decide,
    C7_amended initState lecSubj data7 (generate_time_slots settings4)
      settings4 p7 (by decide)⟩

/-- C8 counterexample: `prefSubj` prefers faculty 2, and faculty 2 exists
in the `data8` catalog, yet the engine places the unit with faculty 1 and
emits no conflict — the preferred-instructor set is not honoured even
when it resolves, and no `qualification` conflict is ever produced. -/
theorem C8_counterexample :
    generate_timetable data8 settings4 =
      ([⟨5, 1, 1, none, 2, "Mon", "09:00", 1⟩], []) ∧
    prefSubj.preferred_faculty_ids = [2] ∧
    data8.faculties.map (fun f => f.id) = [1, 2] := by
  refine ⟨by decide, by decide, by decide⟩

/-- C8 amended: the scheduler ignores preferred-instructor sets entirely:
rewriting every subject's `preferred_faculty_ids` arbitrarily leaves the
whole generation result unchanged, and no `qualification` conflict is
ever emitted (every produced conflict has type `constraint` or
`faculty`). -/
theorem C8_amended (data : GenData) (settings : GenerationSettings)
    (g : Subject → List Nat) :
    generate_timetable (set_preferred g data) settings =
      generate_timetable data settings ∧
    (generate_timetable data settings).2.filter
      (fun c => !(c.type == "constraint" || c.type == "faculty")) = [] := by
  constructor
  · rw [generate_timetable_eq, generate_timetable_eq]
    have hfold :
        (prioritize_subjects (set_preferred g data).subjects).foldl
          (place_one (set_preferred g data) (generate_time_slots settings)
            settings) initState =
        (prioritize_subjects data.subjects).foldl
          (place_one data (generate_time_slots settings) settings)
          initState := by
      have hs : (set_preferred g data).subjects =
          data.subjects.map
            (fun s => { s with preferred_faculty_ids := g s }) := rfl
      rw [hs,
        prioritize_subjects_map
          (fun s => { s with preferred_faculty_ids := g s })
          (fun s => rfl),
        List.foldl_map]
      exact foldl_funext _ _ (fun b a => rfl) _ _
    rw [hfold]
  · rw [List.filter_eq_nil_iff]
    intro c hc
    have hgen : (generate_timetable data settings).2 =
        ((prioritize_subjects data.subjects).foldl
          (place_one data (generate_time_slots settings) settings)
          initState).conflicts ++
          validate_assignments
            ((prioritize_subjects data.subjects).foldl
              (place_one data (generate_time_slots settings) settings)
              initState).assignments := by
      rw [generate_timetable_eq]
    rw [hgen, List.mem_append] at hc
    rcases hc with hc | hc
    · rcases foldl_place_one_conflicts _ initState c hc with hc' | ⟨s, rfl⟩
      · simp [initState] at hc'
      · simp [mkConstraintConflict]
    · have := (validate_assignments_mem _ c hc).1
      simp [this]

/-- C9: whenever some units are unplaceable the engine still returns
normally with its partial result: every subject yields either exactly one
assignment or exactly one `constraint` conflict (so the counts add up to
the catalog size), and every `constraint` conflict carries severity
`high`. -/
theorem C9_partial_result_contract (data : GenData)
    (settings : GenerationSettings) :
    (generate_timetable data settings).1.length +
      ((generate_timetable data settings).2.filter
        (fun c => c.type == "constraint")).length =
      data.subjects.length ∧
    (generate_timetable data settings).2.filter
      (fun c => c.type == "constraint" && !(c.severity == "high")) = [] := by
  have hgen := generate_timetable_eq data settings
  constructor
  · rw [hgen]
    have hval : (validate_assignments
        ((prioritize_subjects data.subjects).foldl
          (place_one data (generate_time_slots settings) settings)
          initState).assignments).filter
        (fun c => c.type == "constraint") = [] := by
      rw [List.filter_eq_nil_iff]
      intro c hc
      have := (validate_assignments_mem _ c hc).1
      simp [this]
    show _ + (List.filter _ (_ ++ _)).length = _
    rw [List.filter_append, hval, List.append_nil]
    rw [foldl_place_one_counts]
    simp [initState, length_prioritize_subjects]
  · rw [hgen]
    rw [List.filter_eq_nil_iff]
    intro c hc
    rw [List.mem_append] at hc
    rcases hc with hc | hc
    · rcases foldl_place_one_conflicts _ initState c hc with hc' | ⟨s, rfl⟩
      · simp [initState] at hc'
      · simp [mkConstraintConflict]
    · have := (validate_assignments_mem _ c hc).1
      simp [this]

/-- C10: the daily-hours limit enforced during placement is the run-wide
`settings.max_hours_per_day` — rewriting every faculty's own
`max_hours_per_day` column arbitrarily leaves the generation result
unchanged — the check counts each stored reservation as exactly one hour
(the length of the day's reservation list, regardless of stored
durations), and indeed the committed 2-hour lab of `data0` occupies a
single entry in its faculty's day list. -/
theorem C10_run_wide_limit (data : GenData)
    (settings : GenerationSettings) (g : Faculty → Nat) :
    generate_timetable (set_faculty_max g data) settings =
      generate_timetable data settings ∧
    (∀ (sched : Schedule) (fid : Nat) (day : String) (duration : Nat),
      faculty_exceeds_daily_limit sched fid day duration
          settings.max_hours_per_day =
        decide ((sched fid day).length + duration >
          settings.max_hours_per_day)) ∧
    (st_lab.faculty_schedule 1 "Mon").length = 1 ∧
    st_lab.assignments.map (fun a => a.duration) = [2] := by
  refine ⟨?_, fun sched fid day duration => rfl, by decide, by decide⟩
  rw [generate_timetable_eq, generate_timetable_eq]
  have hsub : (set_faculty_max g data).subjects = data.subjects := rfl
  rw [hsub]
  have hfold :
      (prioritize_subjects data.subjects).foldl
        (place_one (set_faculty_max g data) (generate_time_slots settings)
          settings) initState =
      (prioritize_subjects data.subjects).foldl
        (place_one data (generate_time_slots settings) settings)
        initState :=
    foldl_funext _ _
      (fun b a =>
        place_one_faculty_invariant
          (fun f => { f with max_hours_per_day := g f }) (fun f => rfl)
          b a)
      _ _
  rw [hfold]

end PDQA
